import Mathlib

/-
Formal model of the WIND messaging system (registry, publisher fan-out,
wire codec, client).  Rust source is embedded shallowly:

  * bytes are natural numbers below 256, byte buffers are lists;
  * machine integers are Nat / Int with explicit bounds where they matter;
  * monotonic instants (std / tokio Instant) are Nat milliseconds, with
    saturating subtraction matching tokio's Instant::duration_since;
  * the bincode v1 wire format used by MessageCodec (fixed-width
    little-endian integers, u64 length prefixes, u32 enum tags) is
    reproduced byte for byte;
  * fallible operations return Option / Except.
-/

namespace Wind

/-- Recognises a well-formed byte buffer: every element is below 256. -/
def bytesOk (s : List Nat) : Bool := s.all (fun b => b < 256)

/-- Fixed-width 4-byte little-endian encoding (bincode v1 integer format). -/
def u32le (v : Nat) : List Nat :=
  [v % 256, v / 256 % 256, v / 2 ^ 16 % 256, v / 2 ^ 24 % 256]

/-- Fixed-width 8-byte little-endian encoding (bincode v1 integer format). -/
def u64le (v : Nat) : List Nat :=
  [v % 256, v / 256 % 256, v / 2 ^ 16 % 256, v / 2 ^ 24 % 256,
   v / 2 ^ 32 % 256, v / 2 ^ 40 % 256, v / 2 ^ 48 % 256, v / 2 ^ 56 % 256]

/-- Big-endian 4-byte encoding; the frame length prefix written by
BytesMut::put_u32 in MessageCodec::encode. -/
def u32be (v : Nat) : List Nat :=
  [v / 2 ^ 24 % 256, v / 2 ^ 16 % 256, v / 256 % 256, v % 256]

/-- Reads a 4-byte little-endian integer. -/
def readU32le : List Nat → Option (Nat × List Nat)
  | b0 :: b1 :: b2 :: b3 :: r =>
      some (b0 + 256 * b1 + 2 ^ 16 * b2 + 2 ^ 24 * b3, r)
  | _ => none

/-- Reads an 8-byte little-endian integer. -/
def readU64le : List Nat → Option (Nat × List Nat)
  | b0 :: b1 :: b2 :: b3 :: b4 :: b5 :: b6 :: b7 :: r =>
      some (b0 + 256 * b1 + 2 ^ 16 * b2 + 2 ^ 24 * b3 + 2 ^ 32 * b4 +
            2 ^ 40 * b5 + 2 ^ 48 * b6 + 2 ^ 56 * b7, r)
  | _ => none

/-- Reads a 4-byte big-endian integer; models tokio's read_u32 on the
incoming byte stream. -/
def readU32be : List Nat → Option (Nat × List Nat)
  | b0 :: b1 :: b2 :: b3 :: r =>
      some (2 ^ 24 * b0 + 2 ^ 16 * b1 + 256 * b2 + b3, r)
  | _ => none

/-- Reads exactly n bytes; models read_exact. -/
def readBytes : Nat → List Nat → Option (List Nat × List Nat)
  | 0, bs => some ([], bs)
  | _ + 1, [] => none
  | n + 1, b :: bs =>
      match readBytes n bs with
      | none => none
      | some (xs, r) => some (b :: xs, r)

/-- Serialization of a bool: one byte, 1 or 0. -/
def encBool (b : Bool) : List Nat := [if b then 1 else 0]

/-- Deserialization of a bool: byte 1 is true, byte 0 is false, anything
else is an InvalidBoolEncoding error. -/
def decBool : List Nat → Option (Bool × List Nat)
  | 1 :: r => some (true, r)
  | 0 :: r => some (false, r)
  | _ => none

/-- Two's-complement image of an i32 as serialized by bincode. -/
def i32enc (v : Int) : List Nat := u32le ((v % (2 ^ 32 : Int)).toNat)

/-- Reinterprets a 32-bit pattern as a signed integer. -/
def i32of (n : Nat) : Int := if n < 2 ^ 31 then (n : Int) else (n : Int) - 2 ^ 32

/-- Deserialization of an i32. -/
def decI32 (bs : List Nat) : Option (Int × List Nat) :=
  match readU32le bs with
  | none => none
  | some (n, r) => some (i32of n, r)

/-- Two's-complement image of an i64 as serialized by bincode. -/
def i64enc (v : Int) : List Nat := u64le ((v % (2 ^ 64 : Int)).toNat)

/-- Reinterprets a 64-bit pattern as a signed integer. -/
def i64of (n : Nat) : Int := if n < 2 ^ 63 then (n : Int) else (n : Int) - 2 ^ 64

/-- Deserialization of an i64. -/
def decI64 (bs : List Nat) : Option (Int × List Nat) :=
  match readU64le bs with
  | none => none
  | some (n, r) => some (i64of n, r)

/-- Serialization of a Rust String: u64 length then the UTF-8 bytes. -/
def encStr (s : List Nat) : List Nat := u64le s.length ++ s

/-- Deserialization of a Rust String (the UTF-8 validity check always
passes on bytes that came from a String, so it is not re-modelled). -/
def decStr (bs : List Nat) : Option (List Nat × List Nat) :=
  match readU64le bs with
  | none => none
  | some (n, r) => readBytes n r

theorem readU32le_u32le (v : Nat) (r : List Nat) (h : v < 2 ^ 32) :
    readU32le (u32le v ++ r) = some (v, r) := by
  simp only [u32le, List.cons_append, List.nil_append, readU32le]
  congr 1
  congr 1
  omega

theorem readU64le_u64le (v : Nat) (r : List Nat) (h : v < 2 ^ 64) :
    readU64le (u64le v ++ r) = some (v, r) := by
  simp only [u64le, List.cons_append, List.nil_append, readU64le]
  congr 1
  congr 1
  omega

theorem readU32be_u32be (v : Nat) (r : List Nat) (h : v < 2 ^ 32) :
    readU32be (u32be v ++ r) = some (v, r) := by
  simp only [u32be, List.cons_append, List.nil_append, readU32be]
  congr 1
  congr 1
  omega

theorem readBytes_append (xs r : List Nat) :
    readBytes xs.length (xs ++ r) = some (xs, r) := by
  induction xs with
  | nil => rfl
  | cons b bs ih => simp [readBytes, ih]

theorem decBool_encBool (b : Bool) (r : List Nat) :
    decBool (encBool b ++ r) = some (b, r) := by
  cases b <;> rfl

theorem decI32_i32enc (v : Int) (r : List Nat)
    (h1 : -(2 ^ 31) ≤ v) (h2 : v < 2 ^ 31) :
    decI32 (i32enc v ++ r) = some (v, r) := by
  have hlt : (v % (2 ^ 32 : Int)).toNat < 2 ^ 32 := by omega
  simp only [decI32, i32enc, readU32le_u32le _ _ hlt]
  congr 2
  simp only [i32of]
  omega

theorem decI64_i64enc (v : Int) (r : List Nat)
    (h1 : -(2 ^ 63) ≤ v) (h2 : v < 2 ^ 63) :
    decI64 (i64enc v ++ r) = some (v, r) := by
  have hlt : (v % (2 ^ 64 : Int)).toNat < 2 ^ 64 := by omega
  simp only [decI64, i64enc, readU64le_u64le _ _ hlt]
  congr 2
  simp only [i64of]
  omega

theorem decStr_encStr (s r : List Nat) (h : s.length < 2 ^ 64) :
    decStr (encStr s ++ r) = some (s, r) := by
  simp only [decStr, encStr, List.append_assoc, readU64le_u64le _ _ h,
    readBytes_append]

/-- Core WIND value type (types.rs, enum WindValue).  Floats are carried
as their raw IEEE-754 bit patterns, which is exactly what the wire format
transports; String and Bytes are byte buffers; Map is the entry list of
the HashMap in iteration order (keys unique). -/
inductive WindValue : Type
  | bool (b : Bool)
  | i32 (v : Int)
  | i64 (v : Int)
  | f32 (bits : Nat)
  | f64 (bits : Nat)
  | str (s : List Nat)
  | bytes (b : List Nat)
  | arr (xs : List WindValue)
  | map (entries : List (List Nat × WindValue))

/-- Equality of f32 values given their bit patterns, as Rust's f32
PartialEq: NaN equals nothing, positive and negative zero are equal,
otherwise equal values have equal bits. -/
def f32eq (a b : Nat) : Bool :=
  let nan := fun (x : Nat) => x / 2 ^ 23 % 2 ^ 8 == 255 && x % 2 ^ 23 != 0
  let zero := fun (x : Nat) => x % 2 ^ 31 == 0
  !nan a && !nan b && (a == b || (zero a && zero b))

/-- Equality of f64 values given their bit patterns, as Rust's f64
PartialEq. -/
def f64eq (a b : Nat) : Bool :=
  let nan := fun (x : Nat) => x / 2 ^ 52 % 2 ^ 11 == 2047 && x % 2 ^ 52 != 0
  let zero := fun (x : Nat) => x % 2 ^ 63 == 0
  !nan a && !nan b && (a == b || (zero a && zero b))

mutual

/-- Rust's derived PartialEq on WindValue: same variant with equal fields;
floats by IEEE equality, arrays pointwise, maps by size plus per-key
lookup (HashMap equality ignores iteration order). -/
def windEq : WindValue → WindValue → Bool
  | .bool a, .bool b => a == b
  | .i32 a, .i32 b => a == b
  | .i64 a, .i64 b => a == b
  | .f32 a, .f32 b => f32eq a b
  | .f64 a, .f64 b => f64eq a b
  | .str a, .str b => a == b
  | .bytes a, .bytes b => a == b
  | .arr a, .arr b => windEqList a b
  | .map a, .map b => a.length == b.length && windEqSub a b
  | _, _ => false
termination_by a b => sizeOf a + sizeOf b

/-- Pointwise equality of value arrays. -/
def windEqList : List WindValue → List WindValue → Bool
  | [], [] => true
  | a :: as1, b :: bs1 => windEq a b && windEqList as1 bs1
  | _, _ => false
termination_by a b => sizeOf a + sizeOf b

/-- Every entry of the first map is present with an equal value in the
second map. -/
def windEqSub : List (List Nat × WindValue) → List (List Nat × WindValue) → Bool
  | [], _ => true
  | (k, v) :: rest, b => windEqFind k v b && windEqSub rest b
termination_by a b => sizeOf a + sizeOf b

/-- Looks a key up in an entry list and compares the stored value. -/
def windEqFind : List Nat → WindValue → List (List Nat × WindValue) → Bool
  | _, _, [] => false
  | k, v, (k2, v2) :: rest => if k2 == k then windEq v v2 else windEqFind k v rest
termination_by _ v b => sizeOf v + sizeOf b

end

mutual

/-- Well-formedness of a value: machine integers in range, byte buffers
made of bytes, all lengths below 2^64 (trivially true of any value a real
process holds, recorded explicitly because the embedding uses Nat). -/
def WindValue.ok : WindValue → Bool
  | .bool _ => true
  | .i32 v => decide (-(2 ^ 31) ≤ v) && decide (v < 2 ^ 31)
  | .i64 v => decide (-(2 ^ 63) ≤ v) && decide (v < 2 ^ 63)
  | .f32 bits => decide (bits < 2 ^ 32)
  | .f64 bits => decide (bits < 2 ^ 64)
  | .str s => bytesOk s && decide (s.length < 2 ^ 64)
  | .bytes b => bytesOk b && decide (b.length < 2 ^ 64)
  | .arr xs => decide (xs.length < 2 ^ 64) && listOkW xs
  | .map es => decide (es.length < 2 ^ 64) && entriesOkW es

/-- Well-formedness of every element of an array. -/
def listOkW : List WindValue → Bool
  | [] => true
  | v :: vs => v.ok && listOkW vs

/-- Well-formedness of every entry of a map. -/
def entriesOkW : List (List Nat × WindValue) → Bool
  | [] => true
  | (k, v) :: es =>
      bytesOk k && decide (k.length < 2 ^ 64) && v.ok && entriesOkW es

end

mutual

/-- Height of a value tree; used as decoder fuel in round-trip proofs. -/
def hV : WindValue → Nat
  | .arr xs => hL xs + 1
  | .map es => hE es + 1
  | _ => 1

/-- Height of an array body. -/
def hL : List WindValue → Nat
  | [] => 0
  | v :: vs => max (hV v) (hL vs)

/-- Height of a map body. -/
def hE : List (List Nat × WindValue) → Nat
  | [] => 0
  | (_, v) :: es => max (hV v) (hE es)

end

mutual

/-- Bincode serialization of a WindValue: a u32 variant tag followed by
the fields (variant order as declared in types.rs). -/
def encVal : WindValue → List Nat
  | .bool b => u32le 0 ++ encBool b
  | .i32 v => u32le 1 ++ i32enc v
  | .i64 v => u32le 2 ++ i64enc v
  | .f32 bits => u32le 3 ++ u32le bits
  | .f64 bits => u32le 4 ++ u64le bits
  | .str s => u32le 5 ++ encStr s
  | .bytes b => u32le 6 ++ encStr b
  | .arr xs => u32le 7 ++ u64le xs.length ++ encVals xs
  | .map es => u32le 8 ++ u64le es.length ++ encEntries es

/-- Serialization of the elements of an array, in order. -/
def encVals : List WindValue → List Nat
  | [] => []
  | v :: vs => encVal v ++ encVals vs

/-- Serialization of the entries of a map, in iteration order. -/
def encEntries : List (List Nat × WindValue) → List Nat
  | [] => []
  | (k, v) :: es => encStr k ++ encVal v ++ encEntries es

end

mutual

/-- Bincode deserialization of a WindValue.  The fuel argument only pays
for nesting depth; the top level passes the input length, which always
suffices because every nested value occupies at least one byte. -/
def decVal : Nat → List Nat → Option (WindValue × List Nat)
  | 0, _ => none
  | fuel + 1, bs =>
    match readU32le bs with
    | none => none
    | some (0, r) =>
        match decBool r with
        | none => none
        | some (b, r2) => some (.bool b, r2)
    | some (1, r) =>
        match decI32 r with
        | none => none
        | some (v, r2) => some (.i32 v, r2)
    | some (2, r) =>
        match decI64 r with
        | none => none
        | some (v, r2) => some (.i64 v, r2)
    | some (3, r) =>
        match readU32le r with
        | none => none
        | some (bits, r2) => some (.f32 bits, r2)
    | some (4, r) =>
        match readU64le r with
        | none => none
        | some (bits, r2) => some (.f64 bits, r2)
    | some (5, r) =>
        match decStr r with
        | none => none
        | some (s, r2) => some (.str s, r2)
    | some (6, r) =>
        match decStr r with
        | none => none
        | some (b, r2) => some (.bytes b, r2)
    | some (7, r) =>
        match readU64le r with
        | none => none
        | some (n, r2) =>
          match decVals fuel n r2 with
          | none => none
          | some (xs, r3) => some (.arr xs, r3)
    | some (8, r) =>
        match readU64le r with
        | none => none
        | some (n, r2) =>
          match decEnts fuel n r2 with
          | none => none
          | some (es, r3) => some (.map es, r3)
    | some _ => none
termination_by fuel _ => (fuel, 0)

/-- Deserialization of n array elements. -/
def decVals : Nat → Nat → List Nat → Option (List WindValue × List Nat)
  | _, 0, bs => some ([], bs)
  | fuel, n + 1, bs =>
    match decVal fuel bs with
    | none => none
    | some (v, r) =>
      match decVals fuel n r with
      | none => none
      | some (vs, r2) => some (v :: vs, r2)
termination_by fuel n _ => (fuel, n + 1)

/-- Deserialization of n map entries. -/
def decEnts : Nat → Nat → List Nat → Option (List (List Nat × WindValue) × List Nat)
  | _, 0, bs => some ([], bs)
  | fuel, n + 1, bs =>
    match decStr bs with
    | none => none
    | some (k, r) =>
      match decVal fuel r with
      | none => none
      | some (v, r2) =>
        match decEnts fuel n r2 with
        | none => none
        | some (es, r3) => some ((k, v) :: es, r3)
termination_by fuel n _ => (fuel, n + 1)

end

theorem hV_pos (v : WindValue) : 1 ≤ hV v := by
  cases v <;> simp [hV]

theorem hV_le_hL {v : WindValue} {xs : List WindValue} (h : v ∈ xs) :
    hV v ≤ hL xs := by
  induction xs with
  | nil => cases h
  | cons a l ih =>
    rcases List.mem_cons.mp h with h1 | h2
    · subst h1; simp [hL]
    · exact le_trans (ih h2) (by simp [hL])

theorem hV_le_hE {k : List Nat} {v : WindValue}
    {es : List (List Nat × WindValue)} (h : (k, v) ∈ es) : hV v ≤ hE es := by
  induction es with
  | nil => cases h
  | cons a l ih =>
    obtain ⟨k2, v2⟩ := a
    rcases List.mem_cons.mp h with h1 | h2
    · rw [Prod.mk.injEq] at h1
      rw [← h1.2]; simp [hE]
    · exact le_trans (ih h2) (by simp [hE])

theorem decVals_enc (fuel : Nat)
    (H : ∀ v r, WindValue.ok v = true → hV v ≤ fuel →
      decVal fuel (encVal v ++ r) = some (v, r)) :
    ∀ xs r, listOkW xs = true → (∀ v ∈ xs, hV v ≤ fuel) →
      decVals fuel xs.length (encVals xs ++ r) = some (xs, r) := by
  intro xs
  induction xs with
  | nil => intro r _ _; simp [encVals, decVals]
  | cons v vs ih =>
    intro r hok hh
    rw [listOkW] at hok
    simp only [Bool.and_eq_true] at hok
    simp only [encVals, List.append_assoc, List.length_cons, decVals,
      H v _ hok.1 (hh v (List.mem_cons_self v vs)),
      ih _ hok.2 (fun w hw => hh w (List.mem_cons_of_mem _ hw))]

theorem decEnts_enc (fuel : Nat)
    (H : ∀ v r, WindValue.ok v = true → hV v ≤ fuel →
      decVal fuel (encVal v ++ r) = some (v, r)) :
    ∀ es r, entriesOkW es = true → (∀ k v, (k, v) ∈ es → hV v ≤ fuel) →
      decEnts fuel es.length (encEntries es ++ r) = some (es, r) := by
  intro es
  induction es with
  | nil => intro r _ _; simp [encEntries, decEnts]
  | cons e es1 ih =>
    obtain ⟨k, v⟩ := e
    intro r hok hh
    rw [entriesOkW] at hok
    simp only [Bool.and_eq_true, decide_eq_true_eq] at hok
    simp only [encEntries, List.append_assoc, List.length_cons, decEnts,
      decStr_encStr _ _ hok.1.1.2,
      H v _ hok.1.2 (hh k v (List.mem_cons_self (k, v) es1)),
      ih _ hok.2 (fun k2 v2 hw => hh k2 v2 (List.mem_cons_of_mem _ hw))]

theorem decVal_encVal :
    ∀ fuel v r, WindValue.ok v = true → hV v ≤ fuel →
      decVal fuel (encVal v ++ r) = some (v, r) := by
  intro fuel
  induction fuel with
  | zero =>
    intro v r _ h
    have := hV_pos v
    omega
  | succ fuel ih =>
    intro v r hok hh
    cases v with
    | bool b =>
      have h0 := readU32le_u32le 0 (encBool b ++ r) (by norm_num)
      simp only [encVal, List.append_assoc, decVal, h0, decBool_encBool]
    | i32 v =>
      rw [WindValue.ok] at hok
      simp only [Bool.and_eq_true, decide_eq_true_eq] at hok
      have h0 := readU32le_u32le 1 (i32enc v ++ r) (by norm_num)
      simp only [encVal, List.append_assoc, decVal, h0,
        decI32_i32enc v r hok.1 hok.2]
    | i64 v =>
      rw [WindValue.ok] at hok
      simp only [Bool.and_eq_true, decide_eq_true_eq] at hok
      have h0 := readU32le_u32le 2 (i64enc v ++ r) (by norm_num)
      simp only [encVal, List.append_assoc, decVal, h0,
        decI64_i64enc v r hok.1 hok.2]
    | f32 bits =>
      rw [WindValue.ok] at hok
      simp only [decide_eq_true_eq] at hok
      have h0 := readU32le_u32le 3 (u32le bits ++ r) (by norm_num)
      simp only [encVal, List.append_assoc, decVal, h0,
        readU32le_u32le bits r hok]
    | f64 bits =>
      rw [WindValue.ok] at hok
      simp only [decide_eq_true_eq] at hok
      have h0 := readU32le_u32le 4 (u64le bits ++ r) (by norm_num)
      simp only [encVal, List.append_assoc, decVal, h0,
        readU64le_u64le bits r hok]
    | str s =>
      rw [WindValue.ok] at hok
      simp only [Bool.and_eq_true, decide_eq_true_eq] at hok
      have h0 := readU32le_u32le 5 (encStr s ++ r) (by norm_num)
      simp only [encVal, List.append_assoc, decVal, h0,
        decStr_encStr s r hok.2]
    | bytes b =>
      rw [WindValue.ok] at hok
      simp only [Bool.and_eq_true, decide_eq_true_eq] at hok
      have h0 := readU32le_u32le 6 (encStr b ++ r) (by norm_num)
      simp only [encVal, List.append_assoc, decVal, h0,
        decStr_encStr b r hok.2]
    | arr xs =>
      rw [WindValue.ok] at hok
      simp only [Bool.and_eq_true, decide_eq_true_eq] at hok
      rw [hV] at hh
      have h0 := readU32le_u32le 7 (u64le xs.length ++ (encVals xs ++ r))
        (by norm_num)
      have h1 := readU64le_u64le xs.length (encVals xs ++ r) hok.1
      have h2 := decVals_enc fuel ih xs r hok.2
        (fun v hv => le_trans (hV_le_hL hv) (by omega))
      simp only [encVal, List.append_assoc, decVal, h0, h1, h2]
    | map es =>
      rw [WindValue.ok] at hok
      simp only [Bool.and_eq_true, decide_eq_true_eq] at hok
      rw [hV] at hh
      have h0 := readU32le_u32le 8 (u64le es.length ++ (encEntries es ++ r))
        (by norm_num)
      have h1 := readU64le_u64le es.length (encEntries es ++ r) hok.1
      have h2 := decEnts_enc fuel ih es r hok.2
        (fun k v hv => le_trans (hV_le_hE hv) (by omega))
      simp only [encVal, List.append_assoc, decVal, h0, h1, h2]

theorem encVal_len_mem {v : WindValue} {xs : List WindValue} (h : v ∈ xs) :
    (encVal v).length ≤ (encVals xs).length := by
  induction xs with
  | nil => cases h
  | cons a l ih =>
    rcases List.mem_cons.mp h with h1 | h2
    · subst h1; simp [encVals]
    · have := ih h2
      simp only [encVals, List.length_append]
      omega

theorem encVal_len_mem_ent {k : List Nat} {v : WindValue}
    {es : List (List Nat × WindValue)} (h : (k, v) ∈ es) :
    (encVal v).length ≤ (encEntries es).length := by
  induction es with
  | nil => cases h
  | cons a l ih =>
    obtain ⟨k2, v2⟩ := a
    rcases List.mem_cons.mp h with h1 | h2
    · rw [Prod.mk.injEq] at h1
      rw [← h1.2]
      simp only [encEntries, List.length_append]
      omega
    · have := ih h2
      simp only [encEntries, List.length_append]
      omega

theorem hL_le_encVals (xs : List WindValue)
    (H : ∀ v ∈ xs, hV v ≤ (encVal v).length) :
    hL xs ≤ (encVals xs).length := by
  induction xs with
  | nil => simp [hL]
  | cons v vs ih =>
    simp only [hL, encVals, List.length_append, max_le_iff]
    constructor
    · have := H v (List.mem_cons_self v vs)
      omega
    · have := ih (fun w hw => H w (List.mem_cons_of_mem _ hw))
      omega

theorem hE_le_encEntries (es : List (List Nat × WindValue))
    (H : ∀ k v, (k, v) ∈ es → hV v ≤ (encVal v).length) :
    hE es ≤ (encEntries es).length := by
  induction es with
  | nil => simp [hE]
  | cons e es1 ih =>
    obtain ⟨k, v⟩ := e
    simp only [hE, encEntries, List.length_append, max_le_iff]
    constructor
    · have := H k v (List.mem_cons_self (k, v) es1)
      omega
    · have := ih (fun k2 v2 hw => H k2 v2 (List.mem_cons_of_mem _ hw))
      omega

theorem hV_le_encVal_len : ∀ k v, hV v ≤ k → hV v ≤ (encVal v).length := by
  intro k
  induction k with
  | zero =>
    intro v h
    have := hV_pos v
    omega
  | succ k ih =>
    intro v h
    cases v with
    | arr xs =>
      rw [hV] at h ⊢
      have hxs : ∀ w ∈ xs, hV w ≤ (encVal w).length := fun w hw =>
        ih w (by have := hV_le_hL hw; omega)
      have := hL_le_encVals xs hxs
      simp only [encVal, List.length_append, u32le, u64le]
      simp only [List.length_cons, List.length_nil]
      omega
    | map es =>
      rw [hV] at h ⊢
      have hes : ∀ k2 v2, (k2, v2) ∈ es → hV v2 ≤ (encVal v2).length :=
        fun k2 v2 hw => ih v2 (by have := hV_le_hE hw; omega)
      have := hE_le_encEntries es hes
      simp only [encVal, List.length_append, u32le, u64le]
      simp only [List.length_cons, List.length_nil]
      omega
    | bool b =>
      simp [hV, encVal, u32le, encBool]
    | i32 v => simp [hV, encVal, u32le, i32enc]
    | i64 v => simp [hV, encVal, u32le, u64le, i64enc]
    | f32 bits => simp [hV, encVal, u32le]
    | f64 bits => simp [hV, encVal, u32le, u64le]
    | str s => simp [hV, encVal, u32le, u64le, encStr]
    | bytes b => simp [hV, encVal, u32le, u64le, encStr]

/-- The nesting height of a value never exceeds the length of its own
serialization, so input length is always enough decoder fuel. -/
theorem hV_le_encLen (v : WindValue) : hV v ≤ (encVal v).length :=
  hV_le_encVal_len (hV v) v le_rfl

/-- Well-formed Rust String: a byte buffer with a representable length. -/
def strOk (s : List Nat) : Bool := bytesOk s && decide (s.length < 2 ^ 64)

/-- UUID (16 raw bytes), as carried by message ids and subscription ids. -/
structure Uuid : Type where
  data : List Nat

/-- A UUID consists of exactly 16 bytes. -/
def Uuid.ok (u : Uuid) : Bool := decide (u.data.length = 16) && bytesOk u.data

/-- Serialization of a Uuid: serde serialize_bytes, a u64 length (16)
followed by the raw bytes. -/
def encUuid (u : Uuid) : List Nat := u64le 16 ++ u.data

/-- Deserialization of a Uuid; any length other than 16 is rejected. -/
def decUuid (bs : List Nat) : Option (Uuid × List Nat) :=
  match readU64le bs with
  | none => none
  | some (16, r) =>
      match readBytes 16 r with
      | none => none
      | some (d, r2) => some (⟨d⟩, r2)
  | some _ => none

/-- Service role (types.rs, enum ServiceType). -/
inductive ServiceType : Type
  | publisher
  | rpcServer
  | both

/-- Serialization of a ServiceType: a bare u32 variant tag. -/
def encServiceType : ServiceType → List Nat
  | .publisher => u32le 0
  | .rpcServer => u32le 1
  | .both => u32le 2

/-- Deserialization of a ServiceType. -/
def decServiceType (bs : List Nat) : Option (ServiceType × List Nat) :=
  match readU32le bs with
  | some (0, r) => some (.publisher, r)
  | some (1, r) => some (.rpcServer, r)
  | some (2, r) => some (.both, r)
  | _ => none

/-- Subscription delivery mode (types.rs, enum SubscriptionMode):
Once, Periodic with an interval in milliseconds, OnChange. -/
inductive SubscriptionMode : Type
  | once
  | periodic (intervalMs : Nat)
  | onChange

/-- The periodic interval is a u64. -/
def SubscriptionMode.ok : SubscriptionMode → Bool
  | .periodic i => decide (i < 2 ^ 64)
  | _ => true

/-- Serialization of a SubscriptionMode. -/
def encMode : SubscriptionMode → List Nat
  | .once => u32le 0
  | .periodic i => u32le 1 ++ u64le i
  | .onChange => u32le 2

/-- Deserialization of a SubscriptionMode. -/
def decMode (bs : List Nat) : Option (SubscriptionMode × List Nat) :=
  match readU32le bs with
  | some (0, r) => some (.once, r)
  | some (1, r) =>
      match readU64le r with
      | none => none
      | some (i, r2) => some (.periodic i, r2)
  | some (2, r) => some (.onChange, r)
  | _ => none

/-- Reliability level of a subscription (types.rs). -/
inductive ReliabilityLevel : Type
  | bestEffort
  | reliable

/-- Serialization of a ReliabilityLevel. -/
def encReliability : ReliabilityLevel → List Nat
  | .bestEffort => u32le 0
  | .reliable => u32le 1

/-- Deserialization of a ReliabilityLevel. -/
def decReliability (bs : List Nat) : Option (ReliabilityLevel × List Nat) :=
  match readU32le bs with
  | some (0, r) => some (.bestEffort, r)
  | some (1, r) => some (.reliable, r)
  | _ => none

/-- QoS parameters of a subscription (types.rs, struct QosParams). -/
structure QosParams : Type where
  reliability : ReliabilityLevel
  durability : Bool
  maxQueueSize : Nat

/-- The queue bound is a u32. -/
def QosParams.ok (q : QosParams) : Bool := decide (q.maxQueueSize < 2 ^ 32)

/-- The QosParams defaults (impl Default for QosParams). -/
def QosParams.default : QosParams :=
  { reliability := .bestEffort, durability := false, maxQueueSize := 1000 }

/-- Serialization of QosParams: fields in declaration order. -/
def encQos (q : QosParams) : List Nat :=
  encReliability q.reliability ++ encBool q.durability ++ u32le q.maxQueueSize

/-- Deserialization of QosParams. -/
def decQos (bs : List Nat) : Option (QosParams × List Nat) :=
  match decReliability bs with
  | none => none
  | some (rel, r) =>
    match decBool r with
    | none => none
    | some (d, r2) =>
      match readU32le r2 with
      | none => none
      | some (m, r3) => some (⟨rel, d, m⟩, r3)

/-- Serialization of an Option: one byte tag, 0 for None and 1 for Some. -/
def encOpt {α : Type} (f : α → List Nat) : Option α → List Nat
  | none => [0]
  | some x => 1 :: f x

/-- Deserialization of an Option. -/
def decOpt {α : Type} (f : List Nat → Option (α × List Nat)) :
    List Nat → Option (Option α × List Nat)
  | 0 :: r => some (none, r)
  | 1 :: r =>
      match f r with
      | none => none
      | some (x, r2) => some (some x, r2)
  | _ => none

/-- Well-formedness of an optional string. -/
def optStrOk : Option (List Nat) → Bool
  | none => true
  | some s => strOk s

/-- Well-formedness of a tag list (Vec of Strings). -/
def tagsOk (ts : List (List Nat)) : Bool :=
  decide (ts.length < 2 ^ 64) && ts.all strOk

/-- Serialization of the strings of a Vec, in order. -/
def encStrsBody : List (List Nat) → List Nat
  | [] => []
  | s :: ss => encStr s ++ encStrsBody ss

/-- Serialization of a Vec of Strings: u64 count then the strings. -/
def encStrs (ss : List (List Nat)) : List Nat :=
  u64le ss.length ++ encStrsBody ss

/-- Deserialization of n strings. -/
def decStrsBody : Nat → List Nat → Option (List (List Nat) × List Nat)
  | 0, bs => some ([], bs)
  | n + 1, bs =>
    match decStr bs with
    | none => none
    | some (s, r) =>
      match decStrsBody n r with
      | none => none
      | some (ss, r2) => some (s :: ss, r2)

/-- Deserialization of a Vec of Strings. -/
def decStrs (bs : List Nat) : Option (List (List Nat) × List Nat) :=
  match readU64le bs with
  | none => none
  | some (n, r) => decStrsBody n r

/-- Service metadata (types.rs, struct ServiceInfo). -/
structure ServiceInfo : Type where
  name : List Nat
  address : List Nat
  serviceType : ServiceType
  schemaId : Option (List Nat)
  ttlMs : Nat
  tags : List (List Nat)

/-- Well-formedness of a ServiceInfo. -/
def ServiceInfo.ok (s : ServiceInfo) : Bool :=
  strOk s.name && strOk s.address && optStrOk s.schemaId &&
  decide (s.ttlMs < 2 ^ 64) && tagsOk s.tags

/-- Serialization of a ServiceInfo: fields in declaration order. -/
def encInfo (s : ServiceInfo) : List Nat :=
  encStr s.name ++ encStr s.address ++ encServiceType s.serviceType ++
  encOpt encStr s.schemaId ++ u64le s.ttlMs ++ encStrs s.tags

/-- Deserialization of a ServiceInfo. -/
def decInfo (bs : List Nat) : Option (ServiceInfo × List Nat) :=
  match decStr bs with
  | none => none
  | some (name, r1) =>
    match decStr r1 with
    | none => none
    | some (address, r2) =>
      match decServiceType r2 with
      | none => none
      | some (st, r3) =>
        match decOpt decStr r3 with
        | none => none
        | some (sid, r4) =>
          match readU64le r4 with
          | none => none
          | some (ttl, r5) =>
            match decStrs r5 with
            | none => none
            | some (tags, r6) => some (⟨name, address, st, sid, ttl, tags⟩, r6)

/-- Well-formedness of a Vec of ServiceInfo. -/
def infosOk (ss : List ServiceInfo) : Bool :=
  decide (ss.length < 2 ^ 64) && ss.all ServiceInfo.ok

/-- Serialization of the elements of a Vec of ServiceInfo. -/
def encInfosBody : List ServiceInfo → List Nat
  | [] => []
  | s :: ss => encInfo s ++ encInfosBody ss

/-- Serialization of a Vec of ServiceInfo: u64 count then the elements. -/
def encInfos (ss : List ServiceInfo) : List Nat :=
  u64le ss.length ++ encInfosBody ss

/-- Deserialization of n ServiceInfo values. -/
def decInfosBody : Nat → List Nat → Option (List ServiceInfo × List Nat)
  | 0, bs => some ([], bs)
  | n + 1, bs =>
    match decInfo bs with
    | none => none
    | some (s, r) =>
      match decInfosBody n r with
      | none => none
      | some (ss, r2) => some (s :: ss, r2)

/-- Deserialization of a Vec of ServiceInfo. -/
def decInfos (bs : List Nat) : Option (List ServiceInfo × List Nat) :=
  match readU64le bs with
  | none => none
  | some (n, r) => decInfosBody n r

/-- Serialization of a Result&lt;WindValue, String&gt;: variant tag Ok=0, Err=1. -/
def encResult : Except (List Nat) WindValue → List Nat
  | .ok v => u32le 0 ++ encVal v
  | .error e => u32le 1 ++ encStr e

/-- Deserialization of a Result&lt;WindValue, String&gt;. -/
def decResult (fuel : Nat) (bs : List Nat) :
    Option (Except (List Nat) WindValue × List Nat) :=
  match readU32le bs with
  | some (0, r) =>
      match decVal fuel r with
      | none => none
      | some (v, r2) => some (.ok v, r2)
  | some (1, r) =>
      match decStr r with
      | none => none
      | some (e, r2) => some (.error e, r2)
  | _ => none

/-- Protocol message payloads (protocol.rs, enum MessagePayload), variants
in declaration order. -/
inductive MessagePayload : Type
  | registerService (service address : List Nat) (serviceType : ServiceType)
      (schemaId : Option (List Nat)) (ttlMs : Nat) (tags : List (List Nat))
  | serviceRegistered (service : List Nat) (success : Bool)
      (error : Option (List Nat))
  | discoverServices (pat : List Nat)
  | servicesDiscovered (services : List ServiceInfo)
  | subscribe (service : List Nat) (mode : SubscriptionMode) (qos : QosParams)
      (schemaId : Option (List Nat))
  | subscribeAck (subscriptionId : Uuid) (success : Bool)
      (error : Option (List Nat)) (currentValue : Option WindValue)
  | unsubscribe (subscriptionId : Uuid)
  | publish (service : List Nat) (sequence : Nat) (value : WindValue)
      (schemaId : Option (List Nat))
  | rpcCall (service method : List Nat) (params : WindValue)
      (schemaId : Option (List Nat))
  | rpcResponse (callId : Uuid) (result : Except (List Nat) WindValue)
      (schemaId : Option (List Nat))
  | heartbeat
  | ping
  | pong
  | error (err : List Nat) (context : Option (List Nat))

/-- Well-formedness of an optional value. -/
def optValOk : Option WindValue → Bool
  | none => true
  | some v => v.ok

/-- Well-formedness of a payload: all strings, integers and values ok. -/
def MessagePayload.ok : MessagePayload → Bool
  | .registerService s a _ sid ttl tags =>
      strOk s && strOk a && optStrOk sid && decide (ttl < 2 ^ 64) && tagsOk tags
  | .serviceRegistered s _ e => strOk s && optStrOk e
  | .discoverServices p => strOk p
  | .servicesDiscovered ss => infosOk ss
  | .subscribe s m q sid => strOk s && m.ok && q.ok && optStrOk sid
  | .subscribeAck i _ e cv => i.ok && optStrOk e && optValOk cv
  | .unsubscribe i => i.ok
  | .publish s seq v sid =>
      strOk s && decide (seq < 2 ^ 64) && v.ok && optStrOk sid
  | .rpcCall s m p sid => strOk s && strOk m && p.ok && optStrOk sid
  | .rpcResponse i res sid =>
      i.ok && (match res with
               | .ok v => v.ok
               | .error e => strOk e) && optStrOk sid
  | .heartbeat => true
  | .ping => true
  | .pong => true
  | .error e c => strOk e && optStrOk c

/-- Serialization of a payload: u32 variant tag then the fields in order. -/
def encPayload : MessagePayload → List Nat
  | .registerService s a st sid ttl tags =>
      u32le 0 ++ encStr s ++ encStr a ++ encServiceType st ++
      encOpt encStr sid ++ u64le ttl ++ encStrs tags
  | .serviceRegistered s ok e =>
      u32le 1 ++ encStr s ++ encBool ok ++ encOpt encStr e
  | .discoverServices p => u32le 2 ++ encStr p
  | .servicesDiscovered ss => u32le 3 ++ encInfos ss
  | .subscribe s m q sid =>
      u32le 4 ++ encStr s ++ encMode m ++ encQos q ++ encOpt encStr sid
  | .subscribeAck i ok e cv =>
      u32le 5 ++ encUuid i ++ encBool ok ++ encOpt encStr e ++
      encOpt encVal cv
  | .unsubscribe i => u32le 6 ++ encUuid i
  | .publish s seq v sid =>
      u32le 7 ++ encStr s ++ u64le seq ++ encVal v ++ encOpt encStr sid
  | .rpcCall s m p sid =>
      u32le 8 ++ encStr s ++ encStr m ++ encVal p ++ encOpt encStr sid
  | .rpcResponse i res sid =>
      u32le 9 ++ encUuid i ++ encResult res ++ encOpt encStr sid
  | .heartbeat => u32le 10
  | .ping => u32le 11
  | .pong => u32le 12
  | .error e c => u32le 13 ++ encStr e ++ encOpt encStr c

/-- Height of an optional value. -/
def hOpt : Option WindValue → Nat
  | none => 0
  | some v => hV v

/-- Height of the value in an RPC result. -/
def hRes : Except (List Nat) WindValue → Nat
  | .ok v => hV v
  | .error _ => 0

/-- Height of the values nested in a payload; decoder fuel bound. -/
def hP : MessagePayload → Nat
  | .subscribeAck _ _ _ cv => hOpt cv
  | .publish _ _ v _ => hV v
  | .rpcCall _ _ v _ => hV v
  | .rpcResponse _ res _ => hRes res
  | _ => 0

/-- Deserialization of a payload. -/
def decPayload (fuel : Nat) (bs : List Nat) :
    Option (MessagePayload × List Nat) :=
  match readU32le bs with
  | some (0, r) =>
      match decStr r with
      | none => none
      | some (s, r1) =>
        match decStr r1 with
        | none => none
        | some (a, r2) =>
          match decServiceType r2 with
          | none => none
          | some (st, r3) =>
            match decOpt decStr r3 with
            | none => none
            | some (sid, r4) =>
              match readU64le r4 with
              | none => none
              | some (ttl, r5) =>
                match decStrs r5 with
                | none => none
                | some (tags, r6) =>
                    some (.registerService s a st sid ttl tags, r6)
  | some (1, r) =>
      match decStr r with
      | none => none
      | some (s, r1) =>
        match decBool r1 with
        | none => none
        | some (ok, r2) =>
          match decOpt decStr r2 with
          | none => none
          | some (e, r3) => some (.serviceRegistered s ok e, r3)
  | some (2, r) =>
      match decStr r with
      | none => none
      | some (p, r1) => some (.discoverServices p, r1)
  | some (3, r) =>
      match decInfos r with
      | none => none
      | some (ss, r1) => some (.servicesDiscovered ss, r1)
  | some (4, r) =>
      match decStr r with
      | none => none
      | some (s, r1) =>
        match decMode r1 with
        | none => none
        | some (m, r2) =>
          match decQos r2 with
          | none => none
          | some (q, r3) =>
            match decOpt decStr r3 with
            | none => none
            | some (sid, r4) => some (.subscribe s m q sid, r4)
  | some (5, r) =>
      match decUuid r with
      | none => none
      | some (i, r1) =>
        match decBool r1 with
        | none => none
        | some (ok, r2) =>
          match decOpt decStr r2 with
          | none => none
          | some (e, r3) =>
            match decOpt (decVal fuel) r3 with
            | none => none
            | some (cv, r4) => some (.subscribeAck i ok e cv, r4)
  | some (6, r) =>
      match decUuid r with
      | none => none
      | some (i, r1) => some (.unsubscribe i, r1)
  | some (7, r) =>
      match decStr r with
      | none => none
      | some (s, r1) =>
        match readU64le r1 with
        | none => none
        | some (seq, r2) =>
          match decVal fuel r2 with
          | none => none
          | some (v, r3) =>
            match decOpt decStr r3 with
            | none => none
            | some (sid, r4) => some (.publish s seq v sid, r4)
  | some (8, r) =>
      match decStr r with
      | none => none
      | some (s, r1) =>
        match decStr r1 with
        | none => none
        | some (m, r2) =>
          match decVal fuel r2 with
          | none => none
          | some (p, r3) =>
            match decOpt decStr r3 with
            | none => none
            | some (sid, r4) => some (.rpcCall s m p sid, r4)
  | some (9, r) =>
      match decUuid r with
      | none => none
      | some (i, r1) =>
        match decResult fuel r1 with
        | none => none
        | some (res, r2) =>
          match decOpt decStr r2 with
          | none => none
          | some (sid, r3) => some (.rpcResponse i res sid, r3)
  | some (10, r) => some (.heartbeat, r)
  | some (11, r) => some (.ping, r)
  | some (12, r) => some (.pong, r)
  | some (13, r) =>
      match decStr r with
      | none => none
      | some (e, r1) =>
        match decOpt decStr r1 with
        | none => none
        | some (c, r2) => some (.error e c, r2)
  | _ => none

/-- Protocol message envelope (protocol.rs, struct Message). -/
structure Message : Type where
  id : Uuid
  timestampUs : Nat
  payload : MessagePayload

/-- Well-formedness of a message. -/
def Message.ok (m : Message) : Bool :=
  m.id.ok && decide (m.timestampUs < 2 ^ 64) && m.payload.ok

/-- Bincode serialization of a message envelope: fields in order. -/
def encMessage (m : Message) : List Nat :=
  encUuid m.id ++ u64le m.timestampUs ++ encPayload m.payload

/-- Bincode deserialization of a message envelope; the fuel for nested
value decoding is the input length, which always suffices. -/
def decMessage (bs : List Nat) : Option (Message × List Nat) :=
  match decUuid bs with
  | none => none
  | some (i, r) =>
    match readU64le r with
    | none => none
    | some (ts, r2) =>
      match decPayload bs.length r2 with
      | none => none
      | some (p, r3) => some (⟨i, ts, p⟩, r3)

/-- Error kinds of wind-core (error.rs, enum WindError); the attached
message strings are abstracted away. -/
inductive WindErrorKind : Type
  | io
  | serialization
  | serviceNotFound
  | typeMismatch
  | connection
  | registry
  | protocol
  | schema
  | timeout

/-- The 16 MiB frame cap (codec.rs, MAX_MESSAGE_SIZE). -/
def maxMessageSize : Nat := 16 * 1024 * 1024

/-- MessageCodec::encode: serialize, reject oversized payloads with a
protocol error, then prepend the 4-byte big-endian length. -/
def MessageCodec.encode (m : Message) : Except WindErrorKind (List Nat) :=
  let data := encMessage m
  if data.length > maxMessageSize then .error .protocol
  else .ok (u32be data.length ++ data)

/-- MessageCodec::decode: read the 4-byte big-endian length prefix, reject
lengths over 16 MiB with a protocol error before reading the body, read
exactly that many bytes, then deserialize. -/
def MessageCodec.decode (bs : List Nat) : Except WindErrorKind Message :=
  match readU32be bs with
  | none => .error .io
  | some (len, rest) =>
    if len > maxMessageSize then .error .protocol
    else
      match readBytes len rest with
      | none => .error .io
      | some (data, _) =>
        match decMessage data with
        | none => .error .serialization
        | some (m, _) => .ok m

theorem readTag0 (r : List Nat) : readU32le (u32le 0 ++ r) = some (0, r) :=
  readU32le_u32le 0 r (by norm_num)

theorem readTag1 (r : List Nat) : readU32le (u32le 1 ++ r) = some (1, r) :=
  readU32le_u32le 1 r (by norm_num)

theorem readTag2 (r : List Nat) : readU32le (u32le 2 ++ r) = some (2, r) :=
  readU32le_u32le 2 r (by norm_num)

theorem readTag3 (r : List Nat) : readU32le (u32le 3 ++ r) = some (3, r) :=
  readU32le_u32le 3 r (by norm_num)

theorem readTag4 (r : List Nat) : readU32le (u32le 4 ++ r) = some (4, r) :=
  readU32le_u32le 4 r (by norm_num)

theorem readTag5 (r : List Nat) : readU32le (u32le 5 ++ r) = some (5, r) :=
  readU32le_u32le 5 r (by norm_num)

theorem readTag6 (r : List Nat) : readU32le (u32le 6 ++ r) = some (6, r) :=
  readU32le_u32le 6 r (by norm_num)

theorem readTag7 (r : List Nat) : readU32le (u32le 7 ++ r) = some (7, r) :=
  readU32le_u32le 7 r (by norm_num)

theorem readTag8 (r : List Nat) : readU32le (u32le 8 ++ r) = some (8, r) :=
  readU32le_u32le 8 r (by norm_num)

theorem readTag9 (r : List Nat) : readU32le (u32le 9 ++ r) = some (9, r) :=
  readU32le_u32le 9 r (by norm_num)

theorem readTag10 (r : List Nat) : readU32le (u32le 10 ++ r) = some (10, r) :=
  readU32le_u32le 10 r (by norm_num)

theorem readTag11 (r : List Nat) : readU32le (u32le 11 ++ r) = some (11, r) :=
  readU32le_u32le 11 r (by norm_num)

theorem readTag12 (r : List Nat) : readU32le (u32le 12 ++ r) = some (12, r) :=
  readU32le_u32le 12 r (by norm_num)

theorem readTag13 (r : List Nat) : readU32le (u32le 13 ++ r) = some (13, r) :=
  readU32le_u32le 13 r (by norm_num)

theorem decStr_encStr_ok (s r : List Nat) (h : strOk s = true) :
    decStr (encStr s ++ r) = some (s, r) := by
  rw [strOk] at h
  simp only [Bool.and_eq_true, decide_eq_true_eq] at h
  exact decStr_encStr s r h.2

theorem decUuid_encUuid (u : Uuid) (r : List Nat) (h : u.ok = true) :
    decUuid (encUuid u ++ r) = some (u, r) := by
  rw [Uuid.ok] at h
  simp only [Bool.and_eq_true, decide_eq_true_eq] at h
  have h16 : readBytes 16 (u.data ++ r) = some (u.data, r) := by
    rw [← h.1]
    exact readBytes_append u.data r
  simp only [decUuid, encUuid, List.append_assoc,
    readU64le_u64le 16 _ (by norm_num), h16]

theorem decServiceType_enc (st : ServiceType) (r : List Nat) :
    decServiceType (encServiceType st ++ r) = some (st, r) := by
  cases st <;>
    simp only [encServiceType, decServiceType, readTag0, readTag1, readTag2]

theorem decMode_enc (m : SubscriptionMode) (r : List Nat)
    (h : m.ok = true) :
    decMode (encMode m ++ r) = some (m, r) := by
  cases m with
  | once => simp only [encMode, decMode, readTag0]
  | periodic i =>
    rw [SubscriptionMode.ok] at h
    simp only [decide_eq_true_eq] at h
    simp only [encMode, List.append_assoc, decMode, readTag1,
      readU64le_u64le i r h]
  | onChange => simp only [encMode, decMode, readTag2]

theorem decReliability_enc (l : ReliabilityLevel) (r : List Nat) :
    decReliability (encReliability l ++ r) = some (l, r) := by
  cases l <;> simp only [encReliability, decReliability, readTag0, readTag1]

theorem decQos_enc (q : QosParams) (r : List Nat) (h : q.ok = true) :
    decQos (encQos q ++ r) = some (q, r) := by
  rw [QosParams.ok] at h
  simp only [decide_eq_true_eq] at h
  simp only [decQos, encQos, List.append_assoc, decReliability_enc,
    decBool_encBool, readU32le_u32le _ r h]

theorem decOpt_enc {α : Type} (f : List Nat → Option (α × List Nat))
    (g : α → List Nat) (o : Option α) (r : List Nat)
    (H : ∀ x r2, o = some x → f (g x ++ r2) = some (x, r2)) :
    decOpt f (encOpt g o ++ r) = some (o, r) := by
  cases o with
  | none => rfl
  | some x => simp only [encOpt, List.cons_append, decOpt, H x r rfl]

theorem decOptStr_enc (o : Option (List Nat)) (r : List Nat)
    (h : optStrOk o = true) :
    decOpt decStr (encOpt encStr o ++ r) = some (o, r) := by
  apply decOpt_enc
  intro x r2 hx
  rw [hx] at h
  simp only [optStrOk] at h
  exact decStr_encStr_ok x r2 h

theorem decOptVal_enc (fuel : Nat) (o : Option WindValue) (r : List Nat)
    (h : optValOk o = true) (hh : hOpt o ≤ fuel) :
    decOpt (decVal fuel) (encOpt encVal o ++ r) = some (o, r) := by
  apply decOpt_enc
  intro x r2 hx
  rw [hx] at h hh
  simp only [optValOk] at h
  simp only [hOpt] at hh
  exact decVal_encVal fuel x r2 h hh

theorem decStrsBody_enc (ss : List (List Nat)) (r : List Nat)
    (h : ss.all strOk = true) :
    decStrsBody ss.length (encStrsBody ss ++ r) = some (ss, r) := by
  induction ss with
  | nil => rfl
  | cons s ss1 ih =>
    simp only [List.all_cons, Bool.and_eq_true] at h
    simp only [encStrsBody, List.append_assoc, List.length_cons, decStrsBody,
      decStr_encStr_ok s _ h.1, ih h.2]

theorem decStrs_enc (ss : List (List Nat)) (r : List Nat)
    (h : tagsOk ss = true) :
    decStrs (encStrs ss ++ r) = some (ss, r) := by
  rw [tagsOk] at h
  simp only [Bool.and_eq_true, decide_eq_true_eq] at h
  simp only [decStrs, encStrs, List.append_assoc,
    readU64le_u64le _ _ h.1, decStrsBody_enc ss r h.2]

theorem decInfo_enc (s : ServiceInfo) (r : List Nat) (h : s.ok = true) :
    decInfo (encInfo s ++ r) = some (s, r) := by
  rw [ServiceInfo.ok] at h
  simp only [Bool.and_eq_true, decide_eq_true_eq] at h
  obtain ⟨⟨⟨⟨hn, ha⟩, hsid⟩, httl⟩, htags⟩ := h
  simp only [decInfo, encInfo, List.append_assoc,
    decStr_encStr_ok s.name _ hn, decStr_encStr_ok s.address _ ha,
    decServiceType_enc, decOptStr_enc s.schemaId _ hsid,
    readU64le_u64le _ _ httl, decStrs_enc s.tags _ htags]

theorem decInfosBody_enc (ss : List ServiceInfo) (r : List Nat)
    (h : ss.all ServiceInfo.ok = true) :
    decInfosBody ss.length (encInfosBody ss ++ r) = some (ss, r) := by
  induction ss with
  | nil => rfl
  | cons s ss1 ih =>
    simp only [List.all_cons, Bool.and_eq_true] at h
    simp only [encInfosBody, List.append_assoc, List.length_cons,
      decInfosBody, decInfo_enc s _ h.1, ih h.2]

theorem decInfos_enc (ss : List ServiceInfo) (r : List Nat)
    (h : infosOk ss = true) :
    decInfos (encInfos ss ++ r) = some (ss, r) := by
  rw [infosOk] at h
  simp only [Bool.and_eq_true, decide_eq_true_eq] at h
  simp only [decInfos, encInfos, List.append_assoc,
    readU64le_u64le _ _ h.1, decInfosBody_enc ss r h.2]

theorem decResult_enc (fuel : Nat) (res : Except (List Nat) WindValue)
    (r : List Nat)
    (h : (match res with
          | .ok v => WindValue.ok v
          | .error e => strOk e) = true)
    (hh : hRes res ≤ fuel) :
    decResult fuel (encResult res ++ r) = some (res, r) := by
  cases res with
  | ok v =>
    simp only [hRes] at hh
    simp only [encResult, List.append_assoc, decResult, readTag0,
      decVal_encVal fuel v r h hh]
  | error e =>
    simp only [encResult, List.append_assoc, decResult, readTag1,
      decStr_encStr_ok e r h]

theorem hP_le_encPayload (p : MessagePayload) : hP p ≤ (encPayload p).length := by
  cases p with
  | subscribeAck i ok e cv =>
    cases cv with
    | none => simp [hP, hOpt]
    | some v =>
      have := hV_le_encLen v
      simp only [hP, hOpt, encPayload, encOpt, List.length_append,
        List.length_cons]
      omega
  | publish s seq v sid =>
    have := hV_le_encLen v
    simp only [hP, encPayload, List.length_append]
    omega
  | rpcCall s m v sid =>
    have := hV_le_encLen v
    simp only [hP, encPayload, List.length_append]
    omega
  | rpcResponse i res sid =>
    cases res with
    | ok v =>
      have := hV_le_encLen v
      simp only [hP, hRes, encPayload, encResult, List.length_append]
      omega
    | error e => simp [hP, hRes]
  | registerService s a st sid ttl tags => simp [hP]
  | serviceRegistered s ok e => simp [hP]
  | discoverServices p => simp [hP]
  | servicesDiscovered ss => simp [hP]
  | subscribe s m q sid => simp [hP]
  | unsubscribe i => simp [hP]
  | heartbeat => simp [hP]
  | ping => simp [hP]
  | pong => simp [hP]
  | error e c => simp [hP]

theorem decPayload_enc (fuel : Nat) (p : MessagePayload) (r : List Nat)
    (hok : p.ok = true) (hh : hP p ≤ fuel) :
    decPayload fuel (encPayload p ++ r) = some (p, r) := by
  cases p with
  | registerService s a st sid ttl tags =>
    rw [MessagePayload.ok] at hok
    simp only [Bool.and_eq_true, decide_eq_true_eq] at hok
    obtain ⟨⟨⟨⟨hs, ha⟩, hsid⟩, httl⟩, htags⟩ := hok
    simp only [encPayload, List.append_assoc, decPayload, readTag0,
      decStr_encStr_ok s _ hs, decStr_encStr_ok a _ ha, decServiceType_enc,
      decOptStr_enc sid _ hsid, readU64le_u64le _ _ httl,
      decStrs_enc tags _ htags]
  | serviceRegistered s ok e =>
    rw [MessagePayload.ok] at hok
    simp only [Bool.and_eq_true] at hok
    simp only [encPayload, List.append_assoc, decPayload, readTag1,
      decStr_encStr_ok s _ hok.1, decBool_encBool,
      decOptStr_enc e _ hok.2]
  | discoverServices p =>
    rw [MessagePayload.ok] at hok
    simp only [encPayload, List.append_assoc, decPayload, readTag2,
      decStr_encStr_ok p _ hok]
  | servicesDiscovered ss =>
    rw [MessagePayload.ok] at hok
    simp only [encPayload, List.append_assoc, decPayload, readTag3,
      decInfos_enc ss _ hok]
  | subscribe s m q sid =>
    rw [MessagePayload.ok] at hok
    simp only [Bool.and_eq_true] at hok
    obtain ⟨⟨⟨hs, hm⟩, hq⟩, hsid⟩ := hok
    simp only [encPayload, List.append_assoc, decPayload, readTag4,
      decStr_encStr_ok s _ hs, decMode_enc m _ hm, decQos_enc q _ hq,
      decOptStr_enc sid _ hsid]
  | subscribeAck i ok e cv =>
    rw [MessagePayload.ok] at hok
    rw [hP] at hh
    simp only [Bool.and_eq_true] at hok
    obtain ⟨⟨hi, he⟩, hcv⟩ := hok
    simp only [encPayload, List.append_assoc, decPayload, readTag5,
      decUuid_encUuid i _ hi, decBool_encBool, decOptStr_enc e _ he,
      decOptVal_enc fuel cv _ hcv hh]
  | unsubscribe i =>
    rw [MessagePayload.ok] at hok
    simp only [encPayload, List.append_assoc, decPayload, readTag6,
      decUuid_encUuid i _ hok]
  | publish s seq v sid =>
    rw [MessagePayload.ok] at hok
    rw [hP] at hh
    simp only [Bool.and_eq_true, decide_eq_true_eq] at hok
    obtain ⟨⟨⟨hs, hseq⟩, hv⟩, hsid⟩ := hok
    simp only [encPayload, List.append_assoc, decPayload, readTag7,
      decStr_encStr_ok s _ hs, readU64le_u64le _ _ hseq,
      decVal_encVal fuel v _ hv hh, decOptStr_enc sid _ hsid]
  | rpcCall s m v sid =>
    rw [MessagePayload.ok] at hok
    rw [hP] at hh
    simp only [Bool.and_eq_true] at hok
    obtain ⟨⟨⟨hs, hm⟩, hv⟩, hsid⟩ := hok
    simp only [encPayload, List.append_assoc, decPayload, readTag8,
      decStr_encStr_ok s _ hs, decStr_encStr_ok m _ hm,
      decVal_encVal fuel v _ hv hh, decOptStr_enc sid _ hsid]
  | rpcResponse i res sid =>
    simp only [MessagePayload.ok] at hok
    rw [hP] at hh
    simp only [Bool.and_eq_true] at hok
    obtain ⟨⟨hi, hres⟩, hsid⟩ := hok
    simp only [encPayload, List.append_assoc, decPayload, readTag9,
      decUuid_encUuid i _ hi, decResult_enc fuel res _ hres hh,
      decOptStr_enc sid _ hsid]
  | heartbeat => simp only [encPayload, decPayload, readTag10]
  | ping => simp only [encPayload, decPayload, readTag11]
  | pong => simp only [encPayload, decPayload, readTag12]
  | error e c =>
    rw [MessagePayload.ok] at hok
    simp only [Bool.and_eq_true] at hok
    simp only [encPayload, List.append_assoc, decPayload, readTag13,
      decStr_encStr_ok e _ hok.1, decOptStr_enc c _ hok.2]

theorem decMessage_enc (m : Message) (r : List Nat) (h : m.ok = true) :
    decMessage (encMessage m ++ r) = some (m, r) := by
  rw [Message.ok] at h
  simp only [Bool.and_eq_true, decide_eq_true_eq] at h
  simp only [decMessage, encMessage, List.append_assoc,
    decUuid_encUuid m.id _ h.1.1, readU64le_u64le _ _ h.1.2]
  have hfuel : hP m.payload ≤
      (encUuid m.id ++ (u64le m.timestampUs ++ (encPayload m.payload ++ r))).length := by
    have h1 := hP_le_encPayload m.payload
    simp only [List.length_append]
    omega
  rw [decPayload_enc _ _ _ h.2 hfuel]

/-- Claim helper: a successfully encoded frame decodes back to the same
message. -/
theorem decode_encode (m : Message) (h : m.ok = true) (bs : List Nat)
    (henc : MessageCodec.encode m = .ok bs) :
    MessageCodec.decode bs = .ok m := by
  rw [MessageCodec.encode] at henc
  by_cases hlen : (encMessage m).length > maxMessageSize
  · simp only [hlen, if_true] at henc
    cases henc
  · simp only [hlen, if_false] at henc
    have hbs : bs = u32be (encMessage m).length ++ encMessage m := by
      cases henc
      rfl
    subst hbs
    have hle : (encMessage m).length < 2 ^ 32 := by
      rw [maxMessageSize] at hlen
      omega
    simp only [MessageCodec.decode, readU32be_u32be _ _ hle, hlen, if_false]
    have hrb : readBytes (encMessage m).length (encMessage m) =
        some (encMessage m, []) := by
      have := readBytes_append (encMessage m) []
      simpa using this
    have hdm : decMessage (encMessage m) = some (m, []) := by
      have := decMessage_enc m [] h
      simpa using this
    simp only [hrb, hdm]

/-- Per-client subscription state (publisher.rs, struct ClientSubscription).
Instants are milliseconds on a monotonic clock. -/
structure ClientSubscription : Type where
  mode : SubscriptionMode
  lastSentAt : Option Nat
  lastSentValue : Option WindValue

/-- ClientSubscription::new: fresh state, nothing sent yet. -/
def ClientSubscription.new (mode : SubscriptionMode) : ClientSubscription :=
  ⟨mode, none, none⟩

/-- Equality of Option&lt;&amp;WindValue&gt; as used by should_send. -/
def optWindEq : Option WindValue → Option WindValue → Bool
  | none, none => true
  | some a, some b => windEq a b
  | _, _ => false

/-- ClientSubscription::should_send.  Once: only if nothing was sent yet;
OnChange: if the candidate differs from the last sent value; Periodic:
if nothing was sent yet or the interval has elapsed (duration_since
saturates, hence truncated subtraction). -/
def shouldSend (s : ClientSubscription) (now : Nat) (next : WindValue) : Bool :=
  match s.mode with
  | .once => s.lastSentAt.isNone
  | .onChange => ! optWindEq s.lastSentValue (some next)
  | .periodic intervalMs =>
    match s.lastSentAt with
    | none => true
    | some ts => decide (now - ts ≥ intervalMs)

/-- ClientSubscription::mark_sent. -/
def markSent (s : ClientSubscription) (now : Nat) (sent : WindValue) :
    ClientSubscription :=
  { s with lastSentAt := some now, lastSentValue := some sent }

/-- The fan-out loop of start_update_sender restricted to one subscription
whose stream writes succeed: for each published value, consult should_send
and on true deliver it and mark_sent.  Returns the final subscription
state and the delivered values in order. -/
def runPublishes (s : ClientSubscription) :
    List (Nat × WindValue) → ClientSubscription × List WindValue
  | [] => (s, [])
  | (now, v) :: rest =>
    if shouldSend s now v then
      let out := runPublishes (markSent s now v) rest
      (out.1, v :: out.2)
    else
      runPublishes s rest

/-- Subscriber intake (publisher.rs, spawn_client_listener, Subscribe arm):
records a fresh ClientSubscription for the topic and builds the ack.  The
qos field of the Subscribe message is ignored by the source (matched away
by `..`); the ack always carries the publisher's cached current_value. -/
def handleSubscribe (currentValue : Option WindValue) (clientId : Uuid)
    (mode : SubscriptionMode) (_qos : QosParams) :
    ClientSubscription × MessagePayload :=
  (ClientSubscription.new mode,
   .subscribeAck clientId true none currentValue)

/-- Registry-held service entry (registry.rs, struct ServiceEntry). -/
structure ServiceEntry : Type where
  info : ServiceInfo
  registeredAt : Nat
  expiresAt : Nat
  lastHeartbeat : Nat

/-- ServiceEntry::new. -/
def ServiceEntry.new (info : ServiceInfo) (ttl : Nat) (now : Nat) :
    ServiceEntry :=
  { info := info, registeredAt := now, expiresAt := now + ttl,
    lastHeartbeat := now }

/-- ServiceEntry::renew. -/
def ServiceEntry.renew (e : ServiceEntry) (ttl : Nat) (now : Nat) :
    ServiceEntry :=
  { e with lastHeartbeat := now, expiresAt := now + ttl }

/-- ServiceEntry::is_expired. -/
def ServiceEntry.isExpired (e : ServiceEntry) (now : Nat) : Bool :=
  decide (now > e.expiresAt)

/-- Registry watch (registry.rs, struct ServiceWatch); receiverCount is
the receiver count of its broadcast sender. -/
structure ServiceWatch : Type where
  id : Uuid
  pat : List Nat
  receiverCount : Nat

/-- Registry state: the service map (association list keyed by name, keys
unique) and the watch list. -/
structure Registry : Type where
  services : List (List Nat × ServiceEntry)
  watches : List ServiceWatch

/-- DashMap::insert: replace the entry under the key, or append. -/
def insertService (ss : List (List Nat × ServiceEntry)) (name : List Nat)
    (e : ServiceEntry) : List (List Nat × ServiceEntry) :=
  match ss with
  | [] => [(name, e)]
  | (k, e0) :: rest =>
    if k == name then (name, e) :: rest else (k, e0) :: insertService rest name e

/-- DashMap::get on the service map. -/
def lookupEntry (reg : Registry) (name : List Nat) : Option ServiceEntry :=
  (reg.services.find? (fun p => p.1 == name)).map (fun p => p.2)

/-- DashMap::get_mut followed by in-place mutation: replace the value
stored under the key. -/
def updateService (ss : List (List Nat × ServiceEntry)) (name : List Nat)
    (e : ServiceEntry) : List (List Nat × ServiceEntry) :=
  match ss with
  | [] => []
  | (k, e0) :: rest =>
    if k == name then (k, e) :: rest else (k, e0) :: updateService rest name e

/-- Registry::register_service: store the entry (replacing any previous
one), bump metrics, notify watchers; unconditionally Ok.  Watch
notification only pushes on broadcast channels, which is invisible in
this state model. -/
def registerService (reg : Registry) (info : ServiceInfo) (ttlMs : Nat)
    (now : Nat) : Registry × Except WindErrorKind Unit :=
  ({ reg with
      services := insertService reg.services info.name
        (ServiceEntry.new info ttlMs now) },
   .ok ())

/-- Registry::renew_service: if the entry exists and its address matches,
renew it; otherwise ServiceNotFound. -/
def renewService (reg : Registry) (name address : List Nat) (ttlMs : Nat)
    (now : Nat) : Registry × Except WindErrorKind Unit :=
  match lookupEntry reg name with
  | some e =>
    if e.info.address == address then
      let e2 := e.renew ttlMs now
      ({ reg with services := updateService reg.services name e2 }, .ok ())
    else (reg, .error .serviceNotFound)
  | none => (reg, .error .serviceNotFound)

/-- Glob matching of the glob crate as used by ServicePattern::matches
with default MatchOptions: byte 42 is the star wildcard and matches any
run of characters (separators included, since require_literal_separator
defaults to false), byte 63 matches exactly one character, every other
byte matches itself.  Character classes do not occur in the patterns
considered here. -/
def globMatch : List Nat → List Nat → Bool
  | [], s => s.isEmpty
  | 42 :: ps, s =>
      (List.range (s.length + 1)).any (fun i => globMatch ps (s.drop i))
  | 63 :: ps, s =>
      match s with
      | [] => false
      | _ :: s2 => globMatch ps s2
  | p :: ps, s =>
      match s with
      | [] => false
      | c :: s2 => p == c && globMatch ps s2

/-- Registry::discover_services: every non-expired entry whose name
matches the pattern (the glob compiles for the patterns considered
here, so the Err branch of ServicePattern::new does not arise). -/
def discoverServices (reg : Registry) (pat : List Nat) (now : Nat) :
    Except WindErrorKind (List ServiceInfo) :=
  .ok (((reg.services.filter (fun p => !(p.2.isExpired now))).filter
      (fun p => globMatch pat p.1)).map (fun p => p.2.info))

/-- Bitwise NOT on a 64-bit usize. -/
def usizeNot (n : Nat) : Nat := 2 ^ 64 - 1 - n % 2 ^ 64

/-- Registry::cleanup_expired: services.retain keeps entries that are not
expired; watches.retain keeps a watch when
(!watch.sender.receiver_count()) == 0, where ! is the bitwise NOT of
Rust on usize, i.e. only watches whose receiver count is usize::MAX. -/
def cleanupExpired (reg : Registry) (now : Nat) : Registry :=
  { services := reg.services.filter (fun p => !(p.2.isExpired now)),
    watches := reg.watches.filter
      (fun w => decide (usizeNot w.receiverCount = 0)) }

/-- RegistryServer::handle_message, RegisterService arm: build the
ServiceInfo, call register_service, answer ServiceRegistered (the error
string of the failure branch is abstracted to an empty string). -/
def handleRegisterMessage (reg : Registry) (service address : List Nat)
    (st : ServiceType) (schemaId : Option (List Nat)) (ttlMs : Nat)
    (tags : List (List Nat)) (now : Nat) : Registry × MessagePayload :=
  let info : ServiceInfo := ⟨service, address, st, schemaId, ttlMs, tags⟩
  let r := registerService reg info ttlMs now
  match r.2 with
  | .ok _ => (r.1, .serviceRegistered service true none)
  | .error _ => (r.1, .serviceRegistered service false (some []))

/-- Client connection manager state (connection.rs, struct Connection);
the TCP stream is reduced to its presence. -/
structure Connection : Type where
  connected : Bool
  reconnectAttempts : Nat
  maxReconnectAttempts : Nat
  reconnectDelay : Nat

/-- Connection::new: disconnected, 0 attempts, max 10, delay 1000 ms. -/
def Connection.new : Connection :=
  { connected := false, reconnectAttempts := 0, maxReconnectAttempts := 10,
    reconnectDelay := 1000 }

/-- The retry loop of Connection::connect, driven by the outcome of each
TCP connection attempt (true = the attempt succeeds).  Returns the result
together with the list of sleeps performed between attempts; none if the
outcome list runs out while the loop would continue. -/
def connectLoop (c : Connection) :
    List Bool → Option (Except WindErrorKind Connection × List Nat)
  | [] => none
  | o :: rest =>
    if o then
      some (.ok { c with connected := true, reconnectAttempts := 0 }, [])
    else
      let a := c.reconnectAttempts + 1
      if a > c.maxReconnectAttempts then some (.error .connection, [])
      else
        let d2 := min (c.reconnectDelay * 2) 30000
        match connectLoop { c with reconnectAttempts := a, reconnectDelay := d2 } rest with
        | none => none
        | some (r, sleeps) => some (r, c.reconnectDelay :: sleeps)

/-- Connection::connect: immediately Ok when a stream is present,
otherwise run the retry loop. -/
def Connection.connect (c : Connection) (outcomes : List Bool) :
    Option (Except WindErrorKind Connection × List Nat) :=
  if c.connected then some (.ok c, []) else connectLoop c outcomes

/-- Connection::disconnect: drop the stream and reset both the attempt
counter and the backoff delay. -/
def Connection.disconnect (c : Connection) : Connection :=
  { c with connected := false, reconnectAttempts := 0, reconnectDelay := 1000 }

/-- Backoff delay in force after j consecutive failures from a fresh
connection: 1000 ms doubled j times, capped at 30000 ms. -/
def dly (j : Nat) : Nat := min (1000 * 2 ^ j) 30000

/-- Connection state after j consecutive failed attempts from fresh. -/
def connAfter (j : Nat) : Connection :=
  { connected := false, reconnectAttempts := j, maxReconnectAttempts := 10,
    reconnectDelay := dly j }

/-- Error type of tokio broadcast Receiver::recv: the channel closed, or
the receiver lagged behind a bounded queue and missed values. -/
inductive RecvError : Type
  | closed
  | lagged (missed : Nat)

/-- Subscription::next (subscriber.rs): Ok(value) becomes Some, every
receive error becomes None. -/
def Subscription.next : Except RecvError WindValue → Option WindValue
  | .ok v => some v
  | .error _ => none

/-- Capacity of the delivery channel created by Subscriber::subscribe:
broadcast::channel(qos.max_queue_size as usize). -/
def subscribeChannelCapacity (qos : QosParams) : Nat := qos.maxQueueSize

/-- C1: should_send implements exactly the three delivery-mode rules —
Once sends iff last_sent_at is none; OnChange sends iff the candidate
differs from last_sent_value under value equality (a fresh subscription
with no last_sent_value always sends); Periodic{interval_ms} sends iff
last_sent_at is none or now − last_sent_at ≥ interval_ms — and folding
should_send/mark_sent over the publishes v1, v1, v2, v2, v3 of an
OnChange subscription delivers exactly v1, v2, v3. -/
theorem C1_delivery_modes (s : ClientSubscription) (now : Nat)
    (next v1 v2 v3 : WindValue) (t1 t2 t3 t4 t5 : Nat)
    (h11 : windEq v1 v1 = true) (h22 : windEq v2 v2 = true)
    (h12 : windEq v1 v2 = false) (h23 : windEq v2 v3 = false) :
    (s.mode = .once →
      (shouldSend s now next = true ↔ s.lastSentAt = none)) ∧
    (s.mode = .onChange →
      (shouldSend s now next = true ↔
        (s.lastSentValue = none ∨
         ∃ w, s.lastSentValue = some w ∧ windEq w next = false))) ∧
    (∀ i, s.mode = .periodic i →
      (shouldSend s now next = true ↔
        (s.lastSentAt = none ∨
         ∃ ts, s.lastSentAt = some ts ∧ now - ts ≥ i))) ∧
    (runPublishes (ClientSubscription.new .onChange)
        [(t1, v1), (t2, v1), (t3, v2), (t4, v2), (t5, v3)]).2 = [v1, v2, v3] := by
  obtain ⟨mode, lsa, lsv⟩ := s
  refine ⟨?_, ?_, ?_, ?_⟩
  · intro hm
    simp only at hm
    subst hm
    cases lsa <;> simp [shouldSend]
  · intro hm
    simp only at hm
    subst hm
    cases lsv with
    | none => simp [shouldSend, optWindEq]
    | some w => simp [shouldSend, optWindEq]
  · intro i hm
    simp only at hm
    subst hm
    cases lsa with
    | none => simp [shouldSend]
    | some ts => simp [shouldSend]
  · simp only [runPublishes, shouldSend, markSent, ClientSubscription.new,
      optWindEq, h11, h22, h12, h23, Bool.not_true, Bool.not_false,
      if_true, if_false, Bool.false_eq_true, ite_true, ite_false]

/-- C1 witness: the delivery-mode rules and the OnChange sequence at
concrete inputs. -/
theorem C1_witness :
    windEq (.i32 7) (.i32 7) = true ∧ windEq (.i32 8) (.i32 8) = true ∧
    windEq (.i32 7) (.i32 8) = false ∧ windEq (.i32 8) (.i32 9) = false ∧
    (runPublishes (ClientSubscription.new .onChange)
        [(0, .i32 7), (1, .i32 7), (2, .i32 8), (3, .i32 8), (4, .i32 9)]).2 =
      [.i32 7, .i32 8, .i32 9] := by
  have e1 : windEq (.i32 7) (.i32 7) = true := by simp [windEq]
  have e2 : windEq (.i32 8) (.i32 8) = true := by simp [windEq]
  have e3 : windEq (.i32 7) (.i32 8) = false := by simp [windEq]
  have e4 : windEq (.i32 8) (.i32 9) = false := by simp [windEq]
  exact ⟨e1, e2, e3, e4,
    (C1_delivery_modes ⟨.once, none, none⟩ 0 (.i32 0) (.i32 7) (.i32 8)
      (.i32 9) 0 1 2 3 4 e1 e2 e3 e4).2.2.2⟩

/-- C2: for every valid protocol message, encoding with MessageCodec and
decoding the produced frame yields the original message (round trip);
encoding is a function of the message, hence deterministic in this
model (the Map entry order being part of the modelled value). -/
theorem C2_codec_round_trip (m : Message) (hok : m.ok = true)
    (bs : List Nat) (henc : MessageCodec.encode m = .ok bs) :
    MessageCodec.decode bs = .ok m :=
  decode_encode m hok bs henc

/-- C2 witness: round trip of a concrete Ping message. -/
theorem C2_witness :
    Message.ok ⟨⟨List.replicate 16 0⟩, 5, .ping⟩ = true ∧
    MessageCodec.encode ⟨⟨List.replicate 16 0⟩, 5, .ping⟩ =
      .ok (u32be 36 ++ encMessage ⟨⟨List.replicate 16 0⟩, 5, .ping⟩) ∧
    MessageCodec.decode (u32be 36 ++ encMessage ⟨⟨List.replicate 16 0⟩, 5, .ping⟩) =
      .ok ⟨⟨List.replicate 16 0⟩, 5, .ping⟩ :=
  ⟨by decide, rfl,
   C2_codec_round_trip ⟨⟨List.replicate 16 0⟩, 5, .ping⟩ (by decide)
     (u32be 36 ++ encMessage ⟨⟨List.replicate 16 0⟩, 5, .ping⟩) rfl⟩

/-- C4 counterexample: a Subscribe whose QoS has durability = false is
acked with the publisher's cached current_value, not with none — the
source ignores the qos field of the Subscribe message. -/
theorem C4_counterexample :
    (handleSubscribe (some (.bool true)) ⟨List.replicate 16 0⟩ .onChange
        { reliability := .bestEffort, durability := false,
          maxQueueSize := 1000 }).2 =
      .subscribeAck ⟨List.replicate 16 0⟩ true none (some (.bool true)) ∧
    some (WindValue.bool true) ≠ (none : Option WindValue) :=
  ⟨rfl, by simp⟩

/-- C4 amended: the SubscribeAck for a successful Subscribe always
carries the publisher's cached current_value, whatever it is, regardless
of the subscriber's durability flag (and a fresh ClientSubscription is
recorded for the topic). -/
theorem C4_ack_ignores_durability (cv : Option WindValue) (cid : Uuid)
    (mode : SubscriptionMode) (qos : QosParams) :
    (handleSubscribe cv cid mode qos).2 = .subscribeAck cid true none cv ∧
    (handleSubscribe cv cid mode qos).1 = ClientSubscription.new mode :=
  ⟨rfl, rfl⟩

/-- C3: the watches retain predicate of cleanup_expired applies a bitwise
NOT to the receiver count before comparing with 0, so cleanup removes a
watch whose broadcast channel still has one receiver — contradicting the
intent stated by the source comment (clean up closed watchers) and by the
spec.  The services half behaves as specified: exactly the expired
entries are removed. -/
theorem C3_cleanup_drops_live_watch :
    cleanupExpired
      { services := [([65], ⟨⟨[65], [70], .publisher, none, 100, []⟩, 0, 10, 0⟩),
                     ([66], ⟨⟨[66], [71], .publisher, none, 100, []⟩, 0, 3, 0⟩)],
        watches := [⟨⟨List.replicate 16 0⟩, [42], 1⟩] } 5 =
      { services := [([65], ⟨⟨[65], [70], .publisher, none, 100, []⟩, 0, 10, 0⟩)],
        watches := [] } := by
  rfl

/-- Byte string of an ASCII Lean string literal. -/
def asBytes (s : String) : List Nat := s.data.map Char.toNat

/-- Temperature publisher in room A (end-to-end discovery scenario). -/
def svcA : ServiceInfo :=
  ⟨asBytes ("SENSOR/ROOM_A/TEMP"), asBytes ("127.0.0.1:7100"), .publisher,
   none, 60000, []⟩

/-- Temperature publisher in room B. -/
def svcB : ServiceInfo :=
  ⟨asBytes ("SENSOR/ROOM_B/TEMP"), asBytes ("127.0.0.1:7101"), .publisher,
   none, 60000, []⟩

/-- Status publisher in hall 1. -/
def svcC : ServiceInfo :=
  ⟨asBytes ("DETECTOR/HALL_1/STATUS"), asBytes ("127.0.0.1:7102"), .publisher,
   none, 60000, []⟩

/-- Registry holding exactly the three live services of the scenario. -/
def regC5 : Registry :=
  { services := [(svcA.name, ServiceEntry.new svcA 60000 0),
                 (svcB.name, ServiceEntry.new svcB 60000 0),
                 (svcC.name, ServiceEntry.new svcC 60000 0)],
    watches := [] }

/-- C5: with exactly SENSOR/ROOM_A/TEMP, SENSOR/ROOM_B/TEMP and
DETECTOR/HALL_1/STATUS live, discover_services returns exactly the two
SENSOR temperature services for SENSOR/*/TEMP, the same two services for
SENSOR/* (the star of the glob crate crosses path separators under its
default options), and all three services for *. -/
theorem C5_discover_patterns :
    discoverServices regC5 (asBytes ("SENSOR/*/TEMP")) 0 = .ok [svcA, svcB] ∧
    discoverServices regC5 (asBytes ("SENSOR/*")) 0 = .ok [svcA, svcB] ∧
    discoverServices regC5 (asBytes ("*")) 0 = .ok [svcA, svcB, svcC] := by
  refine ⟨?_, ?_, ?_⟩ <;> rfl

theorem find_updateService (ss : List (List Nat × ServiceEntry))
    (name : List Nat) (e2 : ServiceEntry)
    (h : (ss.find? (fun q => q.1 == name)).isSome = true) :
    ((updateService ss name e2).find? (fun q => q.1 == name)).map Prod.snd =
      some e2 := by
  induction ss with
  | nil => simp [List.find?] at h
  | cons p rest ih =>
    obtain ⟨k, e0⟩ := p
    by_cases hk : (k == name) = true
    · simp [updateService, hk, List.find?]
    · have hkf : (k == name) = false := by
        simp only [Bool.not_eq_true] at hk
        exact hk
      simp only [List.find?_cons, hkf] at h
      simp only [updateService, hkf, Bool.false_eq_true, if_false,
        List.find?_cons]
      exact ih h

/-- C6: renew_service fails with ServiceNotFound exactly when no entry
for the name exists or the stored address differs; otherwise it succeeds,
sets last_heartbeat to now and expires_at to now + ttl, preserving the
entry invariant expires_at = last_heartbeat + ttl that ServiceEntry::new
also establishes at registration. -/
theorem C6_renew_semantics (reg : Registry) (name address : List Nat)
    (ttlMs now : Nat) :
    ((renewService reg name address ttlMs now).2 = .error .serviceNotFound ↔
      (lookupEntry reg name = none ∨
       ∃ e, lookupEntry reg name = some e ∧ e.info.address ≠ address)) ∧
    (∀ e, lookupEntry reg name = some e → e.info.address = address →
      (renewService reg name address ttlMs now).2 = .ok () ∧
      lookupEntry (renewService reg name address ttlMs now).1 name =
        some (e.renew ttlMs now) ∧
      (e.renew ttlMs now).lastHeartbeat = now ∧
      (e.renew ttlMs now).expiresAt = now + ttlMs ∧
      (e.renew ttlMs now).expiresAt =
        (e.renew ttlMs now).lastHeartbeat + ttlMs) ∧
    (∀ info, (ServiceEntry.new info ttlMs now).expiresAt =
      (ServiceEntry.new info ttlMs now).lastHeartbeat + ttlMs) := by
  refine ⟨?_, ?_, ?_⟩
  · cases hl : lookupEntry reg name with
    | none => simp [renewService, hl]
    | some e =>
      by_cases ha : e.info.address = address
      · have hb : (e.info.address == address) = true := by simp [ha]
        simp [renewService, hl, hb, ha]
      · have hb : (e.info.address == address) = false := by simp [ha]
        simp [renewService, hl, hb, ha]
  · intro e hl ha
    have hb : (e.info.address == address) = true := by simp [ha]
    have hs : (reg.services.find? (fun q => q.1 == name)).isSome = true := by
      rw [lookupEntry] at hl
      cases hf : reg.services.find? (fun q => q.1 == name) with
      | none => rw [hf] at hl; simp at hl
      | some p => simp
    refine ⟨by simp [renewService, hl, hb], ?_, by simp [ServiceEntry.renew],
      by simp [ServiceEntry.renew], by simp [ServiceEntry.renew]⟩
    simp only [renewService, hl, hb, if_true]
    rw [lookupEntry]
    exact find_updateService reg.services name (e.renew ttlMs now) hs
  · intro info
    simp [ServiceEntry.new]

/-- Registry entry used by the C6 witness. -/
def entC6 : ServiceEntry := ⟨⟨[65], [70], .publisher, none, 1000, []⟩, 0, 1000, 0⟩

/-- Registry used by the C6 witness. -/
def regC6 : Registry := { services := [([65], entC6)], watches := [] }

/-- C6 witness: renewal of a concrete matching entry succeeds and updates
the lease fields. -/
theorem C6_witness :
    lookupEntry regC6 [65] = some entC6 ∧
    entC6.info.address = [70] ∧
    (renewService regC6 [65] [70] 500 100).2 = .ok () ∧
    lookupEntry (renewService regC6 [65] [70] 500 100).1 [65] =
      some (entC6.renew 500 100) :=
  ⟨rfl, rfl,
   ((C6_renew_semantics regC6 [65] [70] 500 100).2.1 entC6 rfl rfl).1,
   ((C6_renew_semantics regC6 [65] [70] 500 100).2.1 entC6 rfl rfl).2.1⟩

/-- C9: a registration is never refused — register_service returns Ok for
every ServiceInfo and every ttl, so the RegisterService reply of the
registry server always has success = true and no error, making the
failure branch of the handler unreachable. -/
theorem C9_registration_never_refused (reg : Registry) (info : ServiceInfo)
    (ttlMs now : Nat) (service address : List Nat) (st : ServiceType)
    (schemaId : Option (List Nat)) (tags : List (List Nat)) :
    (registerService reg info ttlMs now).2 = .ok () ∧
    (handleRegisterMessage reg service address st schemaId ttlMs tags now).2 =
      .serviceRegistered service true none :=
  ⟨rfl, rfl⟩

theorem dly_succ (j : Nat) : min (dly j * 2) 30000 = dly (j + 1) := by
  have hp : 1000 * 2 ^ (j + 1) = 1000 * 2 ^ j * 2 := by ring
  rw [dly, dly, hp]
  rcases le_or_lt (1000 * 2 ^ j) 30000 with h | h
  · rw [min_eq_left h]
  · rw [min_eq_right h.le]
    have h2 : (30000 : Nat) ≤ 1000 * 2 ^ j * 2 := by omega
    rw [min_eq_right h2]
    norm_num

/-- Sleeps performed by the retry loop: after the i-th further failure it
sleeps dly (j + i). -/
def backoffSleeps (j k : Nat) : List Nat :=
  (List.range k).map (fun i => dly (j + i))

theorem backoffSleeps_succ (j k : Nat) :
    backoffSleeps j (k + 1) = dly j :: backoffSleeps (j + 1) k := by
  simp only [backoffSleeps, List.range_succ_eq_map, List.map_cons,
    Nat.add_zero, List.map_map]
  congr 1
  have hc : ((fun i => dly (j + i)) ∘ Nat.succ) = fun i => dly (j + 1 + i) := by
    funext i
    simp only [Function.comp]
    congr 1
    omega
  rw [hc]

theorem connectLoop_ok (k : Nat) :
    ∀ j rest, j + k ≤ 10 →
    connectLoop ⟨false, j, 10, dly j⟩
        (List.replicate k false ++ (true :: rest)) =
      some (.ok ⟨true, 0, 10, dly (j + k)⟩, backoffSleeps j k) := by
  induction k with
  | zero =>
    intro j rest h
    simp [connectLoop, backoffSleeps]
  | succ k ih =>
    intro j rest h
    have h1 : ¬(j + 1 > 10) := by omega
    rw [List.replicate_succ, List.cons_append]
    generalize hl2 : List.replicate k false ++ (true :: rest) = tl
    simp only [connectLoop, Bool.false_eq_true, if_false, h1, ite_false,
      dly_succ]
    rw [← hl2, ih (j + 1) rest (by omega)]
    rw [backoffSleeps_succ]
    have hjk : j + 1 + k = j + (k + 1) := by omega
    rw [hjk]

theorem connectLoop_err (k : Nat) :
    ∀ j rest, j + k = 10 →
    connectLoop ⟨false, j, 10, dly j⟩
        (List.replicate (k + 1) false ++ rest) =
      some (.error .connection, backoffSleeps j k) := by
  induction k with
  | zero =>
    intro j rest h
    have hj : j = 10 := by omega
    subst hj
    simp [connectLoop, backoffSleeps]
  | succ k ih =>
    intro j rest h
    have h1 : ¬(j + 1 > 10) := by omega
    rw [List.replicate_succ, List.cons_append]
    generalize hl2 : List.replicate (k + 1) false ++ rest = tl
    simp only [connectLoop, Bool.false_eq_true, if_false, h1, ite_false,
      dly_succ]
    rw [← hl2, ih (j + 1) rest (by omega)]
    rw [backoffSleeps_succ]

/-- C7 counterexample: after one failed attempt a successful connect
returns with reconnect_delay = 2000 ms, not reset to the initial 1000 ms
(only disconnect resets it); and after 10 failed attempts connect does
not give up — it makes an 11th attempt, which here succeeds. -/
theorem C7_counterexample :
    Connection.connect Connection.new [false, true] =
      some (.ok ⟨true, 0, 10, 2000⟩, [1000]) ∧
    (2000 : Nat) ≠ 1000 ∧
    Connection.connect Connection.new (List.replicate 10 false ++ [true]) =
      some (.ok ⟨true, 0, 10, 30000⟩,
        [1000, 2000, 4000, 8000, 16000, 30000, 30000, 30000, 30000, 30000]) := by
  refine ⟨rfl, by norm_num, rfl⟩

/-- C7 amended: connect retries failed attempts sleeping with exponential
backoff — 1 s doubled after each failure, capped at 30 s; it gives up
with a Connection error when the attempt counter exceeds
max_reconnect_attempts = 10, that is after the 11th consecutive failed
attempt; a successful connect resets the attempt counter to 0 but leaves
the grown backoff delay in place — only disconnect() resets the delay to
1 s. -/
theorem C7_connect_backoff (k : Nat) (rest : List Bool) (hk : k ≤ 10) :
    (Connection.connect Connection.new
        (List.replicate k false ++ (true :: rest)) =
      some (.ok ⟨true, 0, 10, dly k⟩, backoffSleeps 0 k)) ∧
    (∀ rest2 : List Bool,
      Connection.connect Connection.new (List.replicate 11 false ++ rest2) =
        some (.error .connection, backoffSleeps 0 10)) ∧
    (∀ c : Connection, (Connection.disconnect c).reconnectAttempts = 0 ∧
      (Connection.disconnect c).reconnectDelay = 1000) := by
  refine ⟨?_, ?_, fun c => ⟨rfl, rfl⟩⟩
  · have h1 := connectLoop_ok k 0 rest (by omega)
    have hnew : Connection.connect Connection.new
        (List.replicate k false ++ (true :: rest)) =
        connectLoop ⟨false, 0, 10, dly 0⟩
          (List.replicate k false ++ (true :: rest)) := rfl
    rw [hnew, h1]
    simp
  · intro rest2
    have h1 := connectLoop_err 10 0 rest2 (by omega)
    have hnew : Connection.connect Connection.new
        (List.replicate 11 false ++ rest2) =
        connectLoop ⟨false, 0, 10, dly 0⟩
          (List.replicate (10 + 1) false ++ rest2) := rfl
    rw [hnew, h1]

/-- C7 witness: two failures then success — connected with attempts reset
and the delay left at 4000 ms, having slept 1000 then 2000 ms. -/
theorem C7_witness :
    (2 ≤ 10) ∧
    Connection.connect Connection.new [false, false, true] =
      some (.ok ⟨true, 0, 10, 4000⟩, [1000, 2000]) := by
  have h := (C7_connect_backoff 2 [] (by norm_num)).1
  exact ⟨by norm_num, h⟩

/-- C8: frames over 16 MiB are rejected with a protocol error on both
paths — decode rejects a length prefix over the cap before reading any
body byte, encode rejects an oversized serialization — and an accepted
message is framed as the 4-byte big-endian length followed by exactly
that many payload bytes. -/
theorem C8_frame_cap (b0 b1 b2 b3 : Nat) (rest : List Nat) (m : Message)
    (hbig : 2 ^ 24 * b0 + 2 ^ 16 * b1 + 256 * b2 + b3 > maxMessageSize) :
    MessageCodec.decode (b0 :: b1 :: b2 :: b3 :: rest) = .error .protocol ∧
    ((encMessage m).length > maxMessageSize →
      MessageCodec.encode m = .error .protocol) ∧
    (∀ bs, MessageCodec.encode m = .ok bs →
      bs = u32be (encMessage m).length ++ encMessage m ∧
      (encMessage m).length ≤ maxMessageSize ∧
      bs.length = 4 + (encMessage m).length) := by
  refine ⟨?_, ?_, ?_⟩
  · simp only [MessageCodec.decode, readU32be]
    rw [if_pos hbig]
  · intro h
    simp only [MessageCodec.encode]
    rw [if_pos h]
  · intro bs h
    simp only [MessageCodec.encode] at h
    by_cases hl : (encMessage m).length > maxMessageSize
    · rw [if_pos hl] at h
      cases h
    · rw [if_neg hl] at h
      cases h
      refine ⟨rfl, by omega, ?_⟩
      simp only [u32be, List.length_append, List.length_cons, List.length_nil]

/-- C8 witness: the all-ones length prefix is rejected with a protocol
error with no body present, and a concrete Ping message is framed as
4-byte length plus payload. -/
theorem C8_witness :
    (2 ^ 24 * 255 + 2 ^ 16 * 255 + 256 * 255 + 255 > maxMessageSize) ∧
    MessageCodec.decode [255, 255, 255, 255] = .error .protocol ∧
    (u32be 36 ++ encMessage ⟨⟨List.replicate 16 0⟩, 5, .ping⟩).length =
      4 + (encMessage ⟨⟨List.replicate 16 0⟩, 5, .ping⟩).length :=
  ⟨by decide,
   (C8_frame_cap 255 255 255 255 [] ⟨⟨List.replicate 16 0⟩, 5, .ping⟩
     (by decide)).1,
   ((C8_frame_cap 255 255 255 255 [] ⟨⟨List.replicate 16 0⟩, 5, .ping⟩
     (by decide)).2.2 _ rfl).2.2⟩

/-- C10: Subscription::next maps every receive failure of the broadcast
channel — the closed error as well as the lag error a slow consumer gets
when the max_queue_size-bounded queue overflows — to None, and a
received value to Some; the channel is created with capacity
qos.max_queue_size. -/
theorem C10_next_swallows_errors (e : RecvError) (v : WindValue)
    (q : QosParams) :
    Subscription.next (.error e) = none ∧
    Subscription.next (.error (.lagged 5)) = none ∧
    Subscription.next (.ok v) = some v ∧
    subscribeChannelCapacity q = q.maxQueueSize :=
  ⟨rfl, rfl, rfl, rfl⟩

end Wind
